import Mathlib

/-
Verification of the tiny-wordy application core against its design
specification.

The development shallowly embeds the code of `src/unnamed/part_000` (the
application module: the `useSpeech` hook, the `getSpeakText` normalizer, the
`Splash`, `Home`, `Category` and `App` components) into Lean.

Modelling conventions:
- JavaScript numbers are modelled exactly as sign-mantissa-exponent decimal
  values `m * 10 ^ e` (`JSNum.finite m e`), plus `NaN` and the two infinities.
  Every number produced by the embedded `Number(...)` parser is an exact
  decimal, so this representation is lossless for all inputs the program
  handles; double rounding and exponential display notation (only reachable
  beyond 10^21) are outside the modelled range.
- Strings are Lean `String`s; character-level work is done on `List Char`
  (code points), because the program only manipulates ASCII identifiers.
- The regular-expression tests of the source are literal-substring tests
  (`/Google US English/i`, `/en-US/i`) and an alternation of literal
  substrings (`/en(-| )US|GB|AU/i`); they are embedded as case-insensitive
  substring containment over code points.
- `String.prototype.localeCompare` on the catalog's ASCII, uniformly cased
  slugs and labels is modelled as code-point lexicographic comparison.
- `Array.prototype.sort` (a stable comparison sort) is modelled as stable
  insertion sort on lists.
- The browser timer, speech-engine and React-state side effects are modelled
  as explicit state-transition systems; the engine's nondeterminism (which
  events it delivers, and when) is the choice of the event list a trace is
  run over.
-/

namespace TinyWordy

/-! ## JavaScript character and string primitives -/

/-- Lower-cased code point of a character, as done by `/.../i` regex tests on
the ASCII range. -/
def charLowerNat (c : Char) : ℕ :=
  if 65 ≤ c.toNat ∧ c.toNat ≤ 90 then c.toNat + 32 else c.toNat

/-- Lower-cased code points of a string. -/
def lowerCodes (s : String) : List ℕ :=
  s.toList.map charLowerNat

/-- Does the second list start with the first one? -/
def headMatch : List ℕ → List ℕ → Bool
  | [], _ => true
  | _ :: _, [] => false
  | a :: as, b :: bs => a == b && headMatch as bs

/-- Contiguous-sublist containment. -/
def hasSubIn (pat l : List ℕ) : Bool :=
  match l with
  | [] => pat.isEmpty
  | _ :: t => headMatch pat l || hasSubIn pat t

/-- Case-insensitive substring test: the embedding of a literal
`/pat/i.test(s)` regular-expression test of the source. -/
def testCI (pat s : String) : Bool :=
  hasSubIn (lowerCodes pat) (lowerCodes s)

/-- Code-point lexicographic comparison on character lists; the model of
`localeCompare` for the catalog's ASCII, uniformly cased strings (as a
less-or-equal test). -/
def lexLe : List Char → List Char → Bool
  | [], _ => true
  | _ :: _, [] => false
  | a :: as, b :: bs =>
    if a.toNat < b.toNat then true
    else if b.toNat < a.toNat then false
    else lexLe as bs

/-! ## JavaScript numbers: `Number(string)` and `String(number)` -/

/-- JavaScript number: `NaN`, the infinities, or an exact decimal
`m * 10 ^ e`.  Values built by `mkFinite` are canonical: either `0 * 10 ^ 0`
or a mantissa not divisible by ten. -/
inductive JSNum where
  | nan
  | posInf
  | negInf
  | finite (m : ℤ) (e : ℤ)
deriving DecidableEq, Repr

/-- Is a character a decimal digit? -/
def digitB (c : Char) : Bool :=
  decide (48 ≤ c.toNat) && decide (c.toNat ≤ 57)

/-- Value of a decimal digit. -/
def digitVal (c : Char) : ℕ := c.toNat - 48

/-- Value of a hexadecimal digit, if it is one. -/
def hexVal (c : Char) : Option ℕ :=
  if 48 ≤ c.toNat ∧ c.toNat ≤ 57 then some (c.toNat - 48)
  else if 97 ≤ c.toNat ∧ c.toNat ≤ 102 then some (c.toNat - 87)
  else if 65 ≤ c.toNat ∧ c.toNat ≤ 70 then some (c.toNat - 55)
  else none

/-- Value of an octal digit, if it is one. -/
def octVal (c : Char) : Option ℕ :=
  if 48 ≤ c.toNat ∧ c.toNat ≤ 55 then some (c.toNat - 48) else none

/-- Value of a binary digit, if it is one. -/
def binVal (c : Char) : Option ℕ :=
  if 48 ≤ c.toNat ∧ c.toNat ≤ 49 then some (c.toNat - 48) else none

/-- Value of a non-empty all-digit sequence in the given base. -/
def radixDigits (val : Char → Option ℕ) (base : ℕ) (cs : List Char) : Option ℕ :=
  match cs with
  | [] => none
  | _ => cs.foldl (fun acc c =>
      match acc, val c with
      | some a, some v => some (a * base + v)
      | _, _ => none) (some 0)

/-- Value of a decimal digit sequence. -/
def digitsToNat (ds : List Char) : ℕ :=
  ds.foldl (fun a c => a * 10 + digitVal c) 0

/-- Parse the optional exponent tail of a decimal literal
(`e`/`E`, optional sign, digits); `some 0` when absent. -/
def parseExpTail : List Char → Option ℤ
  | [] => some 0
  | 'e' :: r | 'E' :: r =>
    match r with
    | '+' :: ds => if !ds.isEmpty && ds.all digitB then some (digitsToNat ds : ℤ) else none
    | '-' :: ds => if !ds.isEmpty && ds.all digitB then some (-(digitsToNat ds : ℤ)) else none
    | ds => if !ds.isEmpty && ds.all digitB then some (digitsToNat ds : ℤ) else none
  | _ => none

/-- Parse an unsigned decimal literal (`digits`, `digits.digits`, `.digits`,
each with optional exponent) into mantissa digits value and a power of ten. -/
def parseDecMant (cs : List Char) : Option (ℕ × ℤ) :=
  let ip := cs.takeWhile digitB
  let r1 := cs.dropWhile digitB
  match r1 with
  | '.' :: r2 =>
    let fp := r2.takeWhile digitB
    let r3 := r2.dropWhile digitB
    if ip.isEmpty && fp.isEmpty then none
    else
      match parseExpTail r3 with
      | some e => some (digitsToNat (ip ++ fp), e - fp.length)
      | none => none
  | _ =>
    if ip.isEmpty then none
    else
      match parseExpTail r1 with
      | some e => some (digitsToNat ip, e)
      | none => none

/-- Is a character JavaScript `StrWhiteSpace` (the ASCII part plus NBSP and
BOM)? -/
def jsWhitespaceB (c : Char) : Bool :=
  c == ' ' || c == '\t' || c == '\n' || c == '\r' ||
  c == '\u000B' || c == '\u000C' || c == '\u00A0' || c == '\uFEFF'

/-- Trim JavaScript whitespace from both ends. -/
def trimJs (cs : List Char) : List Char :=
  ((cs.dropWhile jsWhitespaceB).reverse.dropWhile jsWhitespaceB).reverse

/-- Strip factors of ten: `stripTens fuel n = (n', k)` with `n = n' * 10 ^ k`
and (given enough fuel) `n'` not divisible by ten. -/
def stripTens : ℕ → ℕ → ℕ × ℕ
  | 0, n => (n, 0)
  | f + 1, n =>
    if n ≠ 0 ∧ n % 10 = 0 then
      let p := stripTens f (n / 10)
      (p.1, p.2 + 1)
    else (n, 0)

/-- Build a canonical finite `JSNum` from sign, mantissa digits value and a
power of ten. -/
def mkFinite (neg : Bool) (n : ℕ) (e : ℤ) : JSNum :=
  if n = 0 then .finite 0 0
  else
    let p := stripTens n n
    .finite (if neg then -(p.1 : ℤ) else (p.1 : ℤ)) (e + p.2)

/-- Parse an optionally signed decimal literal or `Infinity`. -/
def jsSignedDec (cs : List Char) : JSNum :=
  let sb : Bool × List Char :=
    match cs with
    | '+' :: r => (false, r)
    | '-' :: r => (true, r)
    | r => (false, r)
  if sb.2 = "Infinity".toList then (if sb.1 then .negInf else .posInf)
  else
    match parseDecMant sb.2 with
    | some p => mkFinite sb.1 p.1 p.2
    | none => .nan

/-- The embedding of JavaScript `Number(s)` for string arguments
(ECMAScript `StringNumericLiteral` semantics): trimmed empty string is `0`,
hex/octal/binary literals are unsigned, otherwise an optionally signed
decimal literal or `Infinity`; anything else is `NaN`. -/
def jsToNumber (s : String) : JSNum :=
  match trimJs s.toList with
  | [] => .finite 0 0
  | '0' :: 'x' :: r | '0' :: 'X' :: r =>
    match radixDigits hexVal 16 r with
    | some n => mkFinite false n 0
    | none => .nan
  | '0' :: 'o' :: r | '0' :: 'O' :: r =>
    match radixDigits octVal 8 r with
    | some n => mkFinite false n 0
    | none => .nan
  | '0' :: 'b' :: r | '0' :: 'B' :: r =>
    match radixDigits binVal 2 r with
    | some n => mkFinite false n 0
    | none => .nan
  | cs => jsSignedDec cs

/-- Integer value of a canonical `JSNum`, when it is an integer. -/
def jsIntVal : JSNum → Option ℤ
  | .finite m e => if 0 ≤ e then some (m * (10 : ℤ) ^ e.toNat) else none
  | _ => none

/-- Left-pad a digit list with zeros to length at least `k + 1`. -/
def padZeros (ds : List Char) (k : ℕ) : List Char :=
  List.replicate (k + 1 - ds.length) '0' ++ ds

/-- The embedding of JavaScript `String(n)` for numbers in the modelled
(plain-decimal) range: `NaN`/`Infinity` render as their names, integers as
signed decimal digits, non-integers with a decimal point and no trailing
zeros. -/
def jsStringOfNum : JSNum → String
  | .nan => "NaN"
  | .posInf => "Infinity"
  | .negInf => "-Infinity"
  | .finite m e =>
    let sign := if m < 0 then "-" else ""
    if 0 ≤ e then
      sign ++ String.mk (Nat.toDigits 10 m.natAbs ++ List.replicate e.toNat '0')
    else
      let k := (-e).toNat
      let ds := padZeros (Nat.toDigits 10 m.natAbs) k
      sign ++ String.mk (ds.take (ds.length - k)) ++ "." ++ String.mk (ds.drop (ds.length - k))

/-! ## Word-to-speech normalizer (`getSpeakText`, source lines 67-81) -/

/-- The `words` array of `getSpeakText`: index 0 is the empty string, indices
1 to 20 the English cardinal words. -/
def numberWords : List String :=
  ["", "one", "two", "three", "four", "five", "six", "seven", "eight", "nine", "ten",
   "eleven", "twelve", "thirteen", "fourteen", "fifteen", "sixteen", "seventeen",
   "eighteen", "nineteen", "twenty"]

/-- JavaScript array indexing `words[n]` with a number index: defined (as the
array element) exactly when `n` is an integer within bounds, `undefined`
(here `none`) otherwise — including for `NaN` and non-integer indices. -/
def wordsAt (n : JSNum) : Option String :=
  match jsIntVal n with
  | some v => if 0 ≤ v ∧ v < 21 then numberWords.get? v.toNat else none
  | none => none

/-- The embedding of `getSpeakText(categoryKey, word)` (source lines 67-81):
letters echo the word; numbers evaluate `words[Number(word)] || String(Number(word))`
(the empty string at index 0 is falsy); every other category echoes the word
(`String` of a string is the string itself). -/
def getSpeakText (categoryKey word : String) : String :=
  if categoryKey = "letters" then word
  else if categoryKey = "numbers" then
    match wordsAt (jsToNumber word) with
    | some w => if w = "" then jsStringOfNum (jsToNumber word) else w
    | none => jsStringOfNum (jsToNumber word)
  else word

/-- Reference definition transcribed from the claim's words (claim C2 and
spec §4.3): for the numbers category, a slug parsing to an integer in
`[1, 20]` becomes its cardinal word and every other slug is returned
unchanged (literal echo of the input); letters and all other categories echo
the slug. -/
def toSpeechTextClaim (categoryKey slug : String) : String :=
  if categoryKey = "letters" then slug
  else if categoryKey = "numbers" then
    match jsIntVal (jsToNumber slug) with
    | some v => if 1 ≤ v ∧ v ≤ 20 then numberWords.getD v.toNat "" else slug
    | none => slug
  else slug

/-- Amended reference definition: as `toSpeechTextClaim`, except that the
fallback for the numbers category is the string form of the parsed number
(`String(Number(slug))`) rather than the slug itself — so a slug that fails
to parse yields `"NaN"`, and an out-of-range numeric slug is echoed in the
parsed number's canonical spelling. -/
def toSpeechTextAmended (categoryKey slug : String) : String :=
  if categoryKey = "letters" then slug
  else if categoryKey = "numbers" then
    match jsIntVal (jsToNumber slug) with
    | some v =>
      if 1 ≤ v ∧ v ≤ 20 then numberWords.getD v.toNat ""
      else jsStringOfNum (jsToNumber slug)
    | none => jsStringOfNum (jsToNumber slug)
  else slug

/-! ## Voices and voice choice (`useSpeech.chooseVoice`, source lines 25-35) -/

/-- Synthesis voice as exposed by the engine. -/
structure Voice where
  name : String
  lang : String
deriving DecidableEq, Repr

/-- The `exact` predicate of `chooseVoice`:
`/Google US English/i.test(v.name) && /en-US/i.test(v.lang)`. -/
def googleUSTest (v : Voice) : Bool :=
  testCI "Google US English" v.name && testCI "en-US" v.lang

/-- The `fallback` predicate of `chooseVoice`: `/en(-| )US|GB|AU/i.test(v.lang)`.
By regex alternation precedence this is "contains `en-US` or `en US`, or
contains `GB`, or contains `AU`" (case-insensitive). -/
def fallbackLangTest (lang : String) : Bool :=
  testCI "en-US" lang || testCI "en US" lang || testCI "GB" lang || testCI "AU" lang

/-- The embedding of `chooseVoice` (source lines 27-33):
`exact || fallback || all[0] || null` over `Array.prototype.find`. -/
def chooseVoice (all : List Voice) : Option Voice :=
  let exactV := all.find? googleUSTest
  let fallbackV := all.find? (fun v => fallbackLangTest v.lang)
  (exactV.orElse fun _ => fallbackV).orElse fun _ => all.head?

/-- Locale test transcribed from the claim's words (claim C4, spec §4.2
tier 2): the locale is one of the English variants `en-US`, `en-GB`,
`en-AU` (case-insensitively). -/
def englishVariantSpec (lang : String) : Bool :=
  lowerCodes lang == lowerCodes "en-US" ||
  lowerCodes lang == lowerCodes "en-GB" ||
  lowerCodes lang == lowerCodes "en-AU"

/-- Reference voice choice transcribed from the claim's words: (1) a voice
named "Google US English" (case-insensitive) with locale `en-US`; (2) any
voice whose locale is an English variant; (3) the first voice; (4) none. -/
def chooseVoiceSpecRef (all : List Voice) : Option Voice :=
  let exactV := all.find? (fun v =>
    testCI "Google US English" v.name && (lowerCodes v.lang == lowerCodes "en-US"))
  let fallbackV := all.find? (fun v => englishVariantSpec v.lang)
  (exactV.orElse fun _ => fallbackV).orElse fun _ => all.head?

/-! ## Speech controller (`useSpeech`, source lines 20-64) -/

/-- Utterance request as built by `speak` (source lines 50-56): text, fixed
prosody (`lang en-US`, `rate 0.85`, `pitch 1.05`, `volume 1`) and the voice
captured at construction time.  The `id` is a ghost identity used to track
which utterance events belong to. -/
structure Utter where
  id : ℕ
  text : String
  lang : String
  rate : JSNum
  pitch : JSNum
  volume : JSNum
  voice : Option Voice
deriving DecidableEq, Repr

/-- Construct the utterance of a `speak(text)` call. -/
def mkUtter (i : ℕ) (text : String) (pref : Option Voice) : Utter :=
  ⟨i, text, "en-US", .finite 85 (-2), .finite 105 (-2), .finite 1 0, pref⟩

/-- Joint state of the controller's `isSpeaking` React state and the
engine: the engine's queue of utterances not yet finished, plus ghost logs
of the "speaking started" / "speaking ended" transitions performed by the
utterance handlers (`onstart` / `onend`). -/
structure SpeechState where
  isSpeaking : Bool
  engineQueue : List Utter
  started : List ℕ
  ended : List ℕ
  nextId : ℕ
deriving DecidableEq, Repr

/-- State at hook mount. -/
def initSpeech : SpeechState := ⟨false, [], [], [], 0⟩

/-- Which point of the `speak` body fails, if any: the `!synthRef.current`
early return, or a throw from `cancel()`, from the utterance constructor, or
from `synth.speak(...)` — all swallowed by the surrounding `try/catch`. -/
inductive SpeakOutcome where
  | ok
  | noEngine
  | cancelThrew
  | constructThrew
  | submitThrew
deriving DecidableEq, Repr

/-- Body of `speak` (source lines 47-59) as a fallible computation: `.error`
carries the state at the throw point (effects already performed persist).
`cancel()` clears the engine queue; a successful call leaves exactly the new
utterance queued.  Note the body never touches `isSpeaking` or the
started/ended logs — those change only in utterance event handlers and the
poll. -/
def speakBody (o : SpeakOutcome) (pref : Option Voice) (s : SpeechState) (text : String) :
    Except SpeechState SpeechState :=
  match o with
  | .noEngine => .ok s
  | .cancelThrew => .error s
  | .constructThrew => .error {s with engineQueue := []}
  | .submitThrew => .error {s with engineQueue := []}
  | .ok => .ok {s with engineQueue := [mkUtter s.nextId text pref], nextId := s.nextId + 1}

/-- The embedding of `speak` (source lines 46-61): the body wrapped in
`try { ... } catch {}` — a total function; a throw leaves the state reached
at the throw point and propagates nothing. -/
def speakJS (o : SpeakOutcome) (pref : Option Voice) (s : SpeechState) (text : String) :
    SpeechState :=
  match speakBody o pref s text with
  | .ok s1 => s1
  | .error s1 => s1

/-- The engine's queryable `speaking` flag: busy while an utterance is
queued or in progress. -/
def engineSpeakingB (s : SpeechState) : Bool := !s.engineQueue.isEmpty

/-- Engine delivers the `onstart` event of utterance `i` (only possible for
the utterance at the head of the queue, once): the handler sets
`isSpeaking` to true (source line 57). -/
def startStep (s : SpeechState) (i : ℕ) : SpeechState :=
  if (s.engineQueue.head?.map fun u => u.id) = some i ∧ i ∉ s.started then
    {s with isSpeaking := true, started := s.started ++ [i]}
  else s

/-- Engine delivers the `onend` event of utterance `i` (possible, at most
once, for any utterance that has started, including one evicted from the
queue by `cancel()` — the engine may or may not deliver it for those): the
handler sets `isSpeaking` to false (source line 58). -/
def endStep (s : SpeechState) (i : ℕ) : SpeechState :=
  if i ∈ s.started ∧ i ∉ s.ended then
    {s with isSpeaking := false, ended := s.ended ++ [i],
            engineQueue := s.engineQueue.filter fun u => u.id != i}
  else s

/-- One tick of the liveness poll (source lines 37-39): if the engine
reports it is not speaking, force `isSpeaking` to false; otherwise do
nothing. -/
def pollStep (s : SpeechState) : SpeechState :=
  if engineSpeakingB s then s else {s with isSpeaking := false}

/-- The `setInterval` period of the liveness poll (source line 39). -/
def POLL_INTERVAL_MS : ℕ := 200

/-- Full state of the mounted `useSpeech` hook: speech state, the engine's
current voice list, the `preferredVoiceRef` cell, and the lifecycle flags
for the polling timer and the `onvoiceschanged` handler. -/
structure HookState where
  speech : SpeechState
  voices : List Voice
  preferredVoice : Option Voice
  pollActive : Bool
  handlerAttached : Bool
  pollPeriodMs : ℕ
deriving DecidableEq, Repr

/-- Mount effect (source lines 25-39): run `chooseVoice` once against the
engine's current list, attach the `onvoiceschanged` handler, start the
poll. -/
def mountHook (vs : List Voice) : HookState :=
  ⟨initSpeech, vs, chooseVoice vs, true, true, POLL_INTERVAL_MS⟩

/-- Effect cleanup (source lines 40-43): `clearInterval(id)` and
`synth.onvoiceschanged = null`. -/
def disposeHook (h : HookState) : HookState :=
  {h with pollActive := false, handlerAttached := false}

/-- Events the hook reacts to: a `speak` call (with its failure outcome), the
engine delivering `onstart`/`onend` for an utterance, a poll tick firing,
and the engine changing its voice list. -/
inductive HookEv where
  | speakCall (text : String) (o : SpeakOutcome)
  | engineStart (i : ℕ)
  | engineEnd (i : ℕ)
  | pollTick
  | voicesChanged (vs : List Voice)
deriving DecidableEq, Repr

/-- Hook transition function.  A poll tick only acts while the interval is
active; a voice-list change always updates the engine's list but runs
`chooseVoice` only while the handler is attached. -/
def hookStep (h : HookState) : HookEv → HookState
  | .speakCall t o => {h with speech := speakJS o h.preferredVoice h.speech t}
  | .engineStart i => {h with speech := startStep h.speech i}
  | .engineEnd i => {h with speech := endStep h.speech i}
  | .pollTick => if h.pollActive then {h with speech := pollStep h.speech} else h
  | .voicesChanged vs =>
    let h1 := {h with voices := vs}
    if h1.handlerAttached then {h1 with preferredVoice := chooseVoice vs} else h1

/-- Run the hook over a list of events. -/
def hookRun (h : HookState) (evs : List HookEv) : HookState :=
  evs.foldl hookStep h

/-- Events driven by the resources the effect cleanup releases: poll ticks
(the interval timer) and voice-list-change notifications (the
`onvoiceschanged` callback). -/
def passiveEv : HookEv → Bool
  | .pollTick => true
  | .voicesChanged _ => true
  | _ => false

/-- The claim C1 scenario: `speak("cat")`, the engine starts speaking it,
then `speak("dog")` is called while "cat" is still active and the engine
delivers no further event (it does not cooperate with the cancel). -/
def c1Trace : List HookEv :=
  [.speakCall "cat" .ok, .engineStart 0, .speakCall "dog" .ok]

/-- State reached by the claim C1 scenario. -/
def c1State : HookState := hookRun (mountHook []) c1Trace

/-- A cooperative continuation of the C1 scenario: the engine delivers the
start and end events of the superseding utterance "dog" (id 1). -/
def c1StateCoop : HookState := hookRun c1State [.engineStart 1, .engineEnd 1]

/-! ## Splash timer (`Splash`, source lines 83-88) -/

/-- The `setTimeout` delay of the splash auto-dismiss (source line 85). -/
def SPLASH_DELAY_MS : ℕ := 2200

/-- State of the splash-dismiss timeout: `remaining = some r` while the
timeout is pending (`r` milliseconds to go), `none` once fired, cleared or
never armed; `fired` counts `onDone` invocations. -/
structure SplashTimer where
  remaining : Option ℕ
  fired : ℕ
deriving DecidableEq, Repr

/-- Mounting `Splash` arms `setTimeout(onDone, 2200)`. -/
def splashMount : SplashTimer := ⟨some SPLASH_DELAY_MS, 0⟩

/-- Events acting on the timer: a millisecond of time passing, or the
component being torn down (the cleanup runs `clearTimeout(t)`).  No user
input event exists that could affect the timer. -/
inductive SplashEv where
  | tickMs
  | unmount
deriving DecidableEq, Repr

/-- Timer transition: the pending timeout counts down and fires `onDone`
exactly when it expires; `clearTimeout` discards a pending timeout. -/
def splashStep (s : SplashTimer) : SplashEv → SplashTimer
  | .tickMs =>
    match s.remaining with
    | some r => if r ≤ 1 then ⟨none, s.fired + 1⟩ else ⟨some (r - 1), s.fired⟩
    | none => s
  | .unmount => ⟨none, s.fired⟩

/-- Run the timer over a list of events. -/
def splashRun (s : SplashTimer) (evs : List SplashEv) : SplashTimer :=
  evs.foldl splashStep s

/-! ## Catalog and the Category screen (source lines 195-316) -/

/-- Catalog item. -/
structure Item where
  slug : String
  label : String
  iconUrl : Option String
deriving DecidableEq, Repr

/-- Catalog category. -/
structure CategoryM where
  key : String
  label : String
  items : List Item
deriving DecidableEq, Repr

/-- Build a canonical finite `JSNum` from an integer mantissa and a power of
ten. -/
def mkFiniteInt (m : ℤ) (e : ℤ) : JSNum :=
  mkFinite (decide (m < 0)) m.natAbs e

/-- JavaScript number subtraction on the modelled exact decimals. -/
def jsSub : JSNum → JSNum → JSNum
  | .nan, _ => .nan
  | _, .nan => .nan
  | .posInf, .posInf => .nan
  | .posInf, _ => .posInf
  | .negInf, .negInf => .nan
  | .negInf, _ => .negInf
  | .finite _ _, .posInf => .negInf
  | .finite _ _, .negInf => .posInf
  | .finite m1 e1, .finite m2 e2 =>
    if e2 ≤ e1 then mkFiniteInt (m1 * (10 : ℤ) ^ (e1 - e2).toNat - m2) e2
    else mkFiniteInt (m1 - m2 * (10 : ℤ) ^ (e2 - e1).toNat) e1

/-- Is a JavaScript number strictly greater than zero?  (`NaN > 0` is
false.) -/
def jsGtZero : JSNum → Bool
  | .posInf => true
  | .finite m _ => decide (0 < m)
  | _ => false

/-- The numbers-category sort comparator
`(a, b) => Number(a.slug) - Number(b.slug)` (source line 203), consumed by
the sort as "`a` stays before `b` unless the comparator is positive". -/
def numLe (a b : Item) : Bool :=
  !(jsGtZero (jsSub (jsToNumber a.slug) (jsToNumber b.slug)))

/-- Order relation induced by the numbers comparator. -/
def numLeP (a b : Item) : Prop := numLe a b = true

/-- Order relation of the letters-category sort
`(a, b) => a.slug.localeCompare(b.slug)` (source line 206). -/
def slugLeP (a b : Item) : Prop := lexLe a.slug.toList b.slug.toList = true

/-- Order relation of the default sort
`(a, b) => a.label.localeCompare(b.label)` (source line 208). -/
def labelLeP (a b : Item) : Prop := lexLe a.label.toList b.label.toList = true

instance : DecidableRel numLeP := fun a b => by unfold numLeP; infer_instance

instance : DecidableRel slugLeP := fun a b => by unfold slugLeP; infer_instance

instance : DecidableRel labelLeP := fun a b => by unfold labelLeP; infer_instance

/-- The embedding of the Category screen's `items` computation (source lines
200-209): a fresh copy of `category.items` (`[...category.items]`) sorted —
numerically by slug for `numbers`, by slug comparison for `letters`, by
label comparison otherwise.  The category's own `items` list is untouched
(the spread copies before the in-place `sort`). -/
def itemsSorted (c : CategoryM) : List Item :=
  if c.key = "numbers" then List.insertionSort numLeP c.items
  else if c.key = "letters" then List.insertionSort slugLeP c.items
  else List.insertionSort labelLeP c.items

/-- What the Category screen renders when it renders at all: the category's
title and its sorted items. -/
structure RenderedCategory where
  title : String
  entries : List Item
deriving DecidableEq, Repr

/-- The embedding of the `Category` component's output (source lines
195-316): look the key up with `CATEGORIES.find((c) => c.key === categoryKey)`;
`if (!category) return null;` — an unknown key renders nothing, and no field
of the missing category is ever accessed. -/
def renderCategoryScreen (catalog : List CategoryM) (categoryKey : String) :
    Option RenderedCategory :=
  match catalog.find? (fun c => c.key == categoryKey) with
  | none => none
  | some c => some ⟨c.label, itemsSorted c⟩

/-- Modelled from the spec: the catalog produced by `loadCatalog()` — the
loader lives in `./utils/catalog`, which is not among the sources; per the
spec it enumerates the categories (the keys the source's `CATEGORY_ICONS`
table also lists), with lowercase slugs, capitalized labels derived from
them, and per-category word lists.  The numbers category holds "1".."20",
listed here in canonical file-name (string) order. -/
def numbersItemsM : List Item :=
  ["1", "10", "11", "12", "13", "14", "15", "16", "17", "18", "19",
   "2", "20", "3", "4", "5", "6", "7", "8", "9"].map fun s => Item.mk s s none

/-- Modelled from the spec: the letters category sample (stored out of
order, so sorting is observable). -/
def lettersItemsM : List Item :=
  [Item.mk "b" "B" none, Item.mk "a" "A" none, Item.mk "c" "C" none]

/-- Modelled from the spec: the loaded catalog (see `numbersItemsM`). -/
def CATEGORIES_M : List CategoryM :=
  [⟨"colors", "Colors", [Item.mk "red" "Red" none, Item.mk "blue" "Blue" none,
      Item.mk "green" "Green" none]⟩,
   ⟨"letters", "Letters", lettersItemsM⟩,
   ⟨"numbers", "Numbers", numbersItemsM⟩,
   ⟨"machines", "Machines", [Item.mk "car" "Car" none, Item.mk "bus" "Bus" none]⟩,
   ⟨"fruitveg", "Fruits & Vegetables", [Item.mk "apple" "Apple" none,
      Item.mk "carrot" "Carrot" none]⟩,
   ⟨"food", "Food", [Item.mk "pizza" "Pizza" none, Item.mk "bread" "Bread" none]⟩,
   ⟨"animals", "Animals", [Item.mk "dog" "Dog" none, Item.mk "cat" "Cat" none]⟩,
   ⟨"jobs", "Jobs", [Item.mk "teacher" "Teacher" none, Item.mk "doctor" "Doctor" none]⟩]

/-- The modelled numbers category. -/
def numbersCategoryM : CategoryM := ⟨"numbers", "Numbers", numbersItemsM⟩

/-- The modelled letters category. -/
def lettersCategoryM : CategoryM := ⟨"letters", "Letters", lettersItemsM⟩

/-! ## Navigation (`App`, source lines 318-340) -/

/-- Navigation state of `App`: the `showSplash` flag and the `screen` string
(`"home"` or a category key). -/
structure AppState where
  showSplash : Bool
  screen : String
deriving DecidableEq, Repr

/-- Initial `App` state (source lines 319-320). -/
def appInit : AppState := ⟨true, "home"⟩

/-- The `Splash`'s `onDone` handler: `setShowSplash(false)` (source line
332). -/
def splashDone (s : AppState) : AppState := {s with showSplash := false}

/-- The `Home`'s `onOpenCategory` handler: `(key) => setScreen(key)` (source
line 334) — note there is no validation of the key. -/
def openCategory (s : AppState) (key : String) : AppState := {s with screen := key}

/-- The `Category`'s `onBack` handler: `() => setScreen("home")` (source
line 336). -/
def goBack (s : AppState) : AppState := {s with screen := "home"}

/-- Which screen `App` renders (source lines 331-337). -/
inductive Screen where
  | splash
  | home
  | category (key : String)
deriving DecidableEq, Repr

/-- Render decision of `App` (source lines 331-337). -/
def renderApp (s : AppState) : Screen :=
  if s.showSplash then .splash
  else if s.screen = "home" then .home
  else .category s.screen

/-- The state showing the Home screen (splash dismissed). -/
def homeState : AppState := splashDone appInit

/-! ## Theorems -/

/-- Claim C1, counterexample.  Scenario: `speak("cat")`, the engine starts
it (`isSpeaking` becomes true), then `speak("dog")` is called and the engine
delivers no further event.  After `speak("dog")` returns, `isSpeaking` still
reports true although only the superseded "cat" (id 0) ever started and no
"speaking ended" was recorded for it — contradicting the claim that the
controller's "speaking ended" bookkeeping for the superseded utterance is
synchronous and immediate regardless of engine cooperation, and that
`isSpeaking` never reports true for the superseded utterance after the new
call. -/
theorem c1_counterexample :
    c1State.speech.isSpeaking = true ∧
    c1State.speech.started = [0] ∧
    c1State.speech.ended = [] ∧
    c1State.speech.engineQueue.map (fun u => u.id) = [1] := by
  decide

/-- Claim C1, amended.  Calling `speak` while a prior utterance is active
deterministically cancels it at the engine level before the new one begins:
after the call exactly the new utterance is queued (at most one active
utterance).  But the "speaking ended" bookkeeping for the superseded
utterance is not synchronous: the `speak` body leaves `isSpeaking` and the
started/ended logs untouched, and the signal is cleared only asynchronously
— by the engine delivering the superseded utterance's end event, or by a
poll tick observing the engine idle.  In the cooperative continuation of the
counterexample scenario the superseding utterance "dog" gets exactly one
started/ended pair. -/
theorem c1_amended :
    ∀ (pref : Option Voice) (s : SpeechState) (t : String),
      (speakJS .ok pref s t).engineQueue = [mkUtter s.nextId t pref] ∧
      (speakJS .ok pref s t).isSpeaking = s.isSpeaking ∧
      (speakJS .ok pref s t).started = s.started ∧
      (speakJS .ok pref s t).ended = s.ended ∧
      (∀ s2 : SpeechState, engineSpeakingB s2 = false → (pollStep s2).isSpeaking = false) ∧
      (∀ (s2 : SpeechState) (i : ℕ), i ∈ s2.started → i ∉ s2.ended →
        (endStep s2 i).isSpeaking = false) ∧
      (c1StateCoop.speech.started = [0, 1] ∧ c1StateCoop.speech.ended = [1] ∧
        c1StateCoop.speech.isSpeaking = false) := by
  intro pref s t
  refine ⟨rfl, rfl, rfl, rfl, ?_, ?_, by decide⟩
  · intro s2 h
    simp [pollStep, engineSpeakingB] at h ⊢
    simp [h]
  · intro s2 i h1 h2
    simp [endStep, h1, h2]

/-- Claim C1, witness for the amended theorem. -/
theorem c1_amended_witness :
    (speakJS .ok none initSpeech "dog").engineQueue = [mkUtter 0 "dog" none] ∧
    (pollStep initSpeech).isSpeaking = false ∧
    (endStep ⟨true, [], [0], [], 1⟩ 0).isSpeaking = false :=
  ⟨(c1_amended none initSpeech "dog").1,
   (c1_amended none initSpeech "dog").2.2.2.2.1 initSpeech (by decide),
   (c1_amended none initSpeech "dog").2.2.2.2.2.1 ⟨true, [], [0], [], 1⟩ 0
     (by decide) (by decide)⟩

/-- Claim C2, counterexample.  A numbers-category slug that fails to parse
is not echoed: `getSpeakText("numbers", "abc")` evaluates
`words[NaN] || String(NaN)` and returns `"NaN"`, while the claim's reference
definition returns the slug `"abc"` unchanged. -/
theorem c2_counterexample :
    getSpeakText "numbers" "abc" = "NaN" ∧
    toSpeechTextClaim "numbers" "abc" = "abc" ∧
    getSpeakText "numbers" "abc" ≠ toSpeechTextClaim "numbers" "abc" := by
  decide

/-- Claim C2, amended.  `getSpeakText` is total and equals the amended
reference definition: letters echo the slug; for the numbers category a slug
parsing to an integer in `[1, 20]` becomes its English cardinal word, and
otherwise the result is the string form of the parsed number
(`String(Number(slug))`) — which is the slug itself for canonical in-range
decimal slugs such as `"21"`, but `"NaN"` when parsing fails; every other
category echoes the slug.  The claim's listed examples all hold. -/
theorem c2_theorem :
    (∀ categoryKey word, getSpeakText categoryKey word = toSpeechTextAmended categoryKey word) ∧
    getSpeakText "numbers" "7" = "seven" ∧
    getSpeakText "numbers" "20" = "twenty" ∧
    getSpeakText "numbers" "21" = "21" ∧
    getSpeakText "letters" "b" = "b" ∧
    getSpeakText "colors" "red" = "red" := by
  refine ⟨?_, by decide, by decide, by decide, by decide, by decide⟩
  intro ck w
  unfold getSpeakText toSpeechTextAmended wordsAt
  by_cases h1 : ck = "letters"
  · simp [h1]
  · by_cases h2 : ck = "numbers"
    · rw [if_neg h1, if_neg h1, if_pos h2, if_pos h2]
      cases hj : jsIntVal (jsToNumber w) with
      | none => simp
      | some v =>
        dsimp only
        by_cases hv0 : 0 ≤ v
        · by_cases hv21 : v < 21
          · lift v to ℕ using hv0 with n
            have hn : n < 21 := by exact_mod_cast hv21
            have hall : ∀ m ∈ List.range 21,
                numberWords.get? m = some (numberWords.getD m "") ∧
                (1 ≤ m → numberWords.getD m "" ≠ "") := by decide
            obtain ⟨hg, hne⟩ := hall n (List.mem_range.mpr hn)
            rw [if_pos (show (0 : ℤ) ≤ (n : ℤ) ∧ (n : ℤ) < 21 from
              ⟨by exact_mod_cast Nat.zero_le n, by exact_mod_cast hn⟩)]
            rw [show ((n : ℤ)).toNat = n from Int.toNat_natCast n]
            rw [hg]
            dsimp only
            by_cases h1n : 1 ≤ n
            · rw [if_neg (hne h1n),
                if_pos (show (1 : ℤ) ≤ (n : ℤ) ∧ (n : ℤ) ≤ 20 from
                  ⟨by exact_mod_cast h1n, by omega⟩)]
            · have hn0 : n = 0 := by omega
              subst hn0
              rw [show numberWords.getD 0 "" = "" from rfl]
              rw [if_pos rfl, if_neg (show ¬((1 : ℤ) ≤ ((0 : ℕ) : ℤ) ∧ ((0 : ℕ) : ℤ) ≤ 20) by omega)]
          · rw [if_neg (show ¬(0 ≤ v ∧ v < 21) by omega),
              if_neg (show ¬(1 ≤ v ∧ v ≤ 20) by omega)]
        · rw [if_neg (show ¬(0 ≤ v ∧ v < 21) by omega),
            if_neg (show ¬(1 ≤ v ∧ v ≤ 20) by omega)]
    · simp [h1, h2]

/-- Claim C3, counterexample.  `"zzz"` is not a key of the loaded catalog,
yet selecting it from Home does not leave the navigation state at Home: the
`onOpenCategory` handler is `(key) => setScreen(key)` with no validation, so
the app renders the Category screen for `"zzz"`. -/
theorem c3_counterexample :
    (CATEGORIES_M.all fun c => c.key != "zzz") = true ∧
    renderApp (openCategory homeState "zzz") = Screen.category "zzz" ∧
    renderApp (openCategory homeState "zzz") ≠ Screen.home := by
  decide

/-- Claim C3, amended.  Selecting a key that is not a valid catalog key from
Home is not rejected: the machine unconditionally moves to `Category(key)`.
The defensive behaviour lives one layer down — the Category screen's lookup
of the unknown key finds nothing and the screen renders nothing (`null`) —
but the navigation state does not remain Home. -/
theorem c3_amended :
    ∀ (catalog : List CategoryM) (key : String),
      (∀ c ∈ catalog, c.key ≠ key) → key ≠ "home" →
      (openCategory homeState key).screen = key ∧
      renderApp (openCategory homeState key) = Screen.category key ∧
      renderCategoryScreen catalog key = none := by
  intro catalog key hinv hkey
  refine ⟨rfl, ?_, ?_⟩
  · simp [renderApp, openCategory, homeState, splashDone, appInit, hkey]
  · have hfind : catalog.find? (fun c => c.key == key) = none :=
      List.find?_eq_none.mpr (fun c hc => by simp [hinv c hc])
    simp [renderCategoryScreen, hfind]

/-- Claim C3, witness for the amended theorem. -/
theorem c3_amended_witness :
    (openCategory homeState "zzz").screen = "zzz" ∧
    renderApp (openCategory homeState "zzz") = Screen.category "zzz" ∧
    renderCategoryScreen CATEGORIES_M "zzz" = none :=
  c3_amended CATEGORIES_M "zzz" (by decide) (by decide)

/-- Claim C4, failing input.  On the voice list
`[{name: "French", lang: "fr-FR"}, {name: "Gbaya", lang: "gba-CM"}]` the
code's fallback regex `/en(-| )US|GB|AU/i` — by alternation precedence
"contains en-US/en US, or contains GB, or contains AU" — matches the Gbaya
voice's `gba-CM` locale, so `chooseVoice` returns the Gbaya voice as its
"English" fallback; the claimed precedence (tier 2 restricted to the English
variants en-US/en-GB/en-AU, tier 3 the first voice) would return the French
voice.  The code's own comment says "else any English voice", so the regex
precedence is a slip in the code. -/
theorem c4_divergence :
    chooseVoice [⟨"French", "fr-FR"⟩, ⟨"Gbaya", "gba-CM"⟩] = some ⟨"Gbaya", "gba-CM"⟩ ∧
    chooseVoiceSpecRef [⟨"French", "fr-FR"⟩, ⟨"Gbaya", "gba-CM"⟩] = some ⟨"French", "fr-FR"⟩ ∧
    englishVariantSpec "gba-CM" = false ∧
    fallbackLangTest "gba-CM" = true := by
  decide

/-- Claim C5.  `speak` never throws: it is the total `try/catch` wrapper of
its fallible body, and every failure outcome (engine unavailable, or a throw
from cancel, construction or submission) is swallowed.  A swallowed failure
performs no signal bookkeeping: `isSpeaking` and the started/ended logs are
unchanged for every outcome, so if `isSpeaking` was false it remains false;
an unavailable engine is a complete no-op. -/
theorem c5_speak_swallows :
    ∀ (o : SpeakOutcome) (pref : Option Voice) (s : SpeechState) (t : String),
      (speakJS o pref s t).isSpeaking = s.isSpeaking ∧
      (speakJS o pref s t).started = s.started ∧
      (speakJS o pref s t).ended = s.ended ∧
      (s.isSpeaking = false → (speakJS o pref s t).isSpeaking = false) ∧
      (o = .noEngine → speakJS o pref s t = s) := by
  intro o pref s t
  cases o <;> simp [speakJS, speakBody]

/-- Claim C5, witness. -/
theorem c5_witness :
    initSpeech.isSpeaking = false ∧
    (speakJS .constructThrew none initSpeech "hello").isSpeaking = false ∧
    speakJS .noEngine none initSpeech "hello" = initSpeech :=
  ⟨by decide,
   (c5_speak_swallows .constructThrew none initSpeech "hello").2.2.2.1 (by decide),
   (c5_speak_swallows .noEngine none initSpeech "hello").2.2.2.2 rfl⟩

/-- Claim C6.  The liveness poll runs at the fixed 200 ms interval set at
mount; a tick forces `isSpeaking` to false exactly when the engine reports
it is not speaking, is a no-op when the engine is busy, and never sets the
signal to true — only the utterance's own start handler does that. -/
theorem c6_poll :
    POLL_INTERVAL_MS = 200 ∧
    (∀ vs : List Voice, (mountHook vs).pollPeriodMs = 200) ∧
    (∀ s : SpeechState, engineSpeakingB s = false → (pollStep s).isSpeaking = false) ∧
    (∀ s : SpeechState, engineSpeakingB s = true → pollStep s = s) ∧
    (∀ s : SpeechState, (pollStep s).isSpeaking = true → s.isSpeaking = true) := by
  refine ⟨rfl, fun vs => rfl, ?_, ?_, ?_⟩
  · intro s h
    simp [pollStep, h]
  · intro s h
    simp [pollStep, h]
  · intro s h
    by_cases hb : engineSpeakingB s
    · simpa [pollStep, hb] using h
    · simp [pollStep, hb] at h

/-- Claim C6, witness. -/
theorem c6_witness :
    (pollStep initSpeech).isSpeaking = false ∧
    pollStep ⟨true, [mkUtter 0 "cat" none], [0], [], 1⟩ =
      ⟨true, [mkUtter 0 "cat" none], [0], [], 1⟩ :=
  ⟨c6_poll.2.2.1 initSpeech (by decide),
   c6_poll.2.2.2.1 ⟨true, [mkUtter 0 "cat" none], [0], [], 1⟩ (by decide)⟩

/-- Events that are only poll ticks or voice-list changes leave a hook whose
timer is cancelled and whose handler is detached inert: the speech state and
the preferred voice never change again, and the flags stay off. -/
theorem hookRun_passive :
    ∀ (evs : List HookEv) (h : HookState),
      h.pollActive = false → h.handlerAttached = false → evs.all passiveEv = true →
      (hookRun h evs).speech = h.speech ∧
      (hookRun h evs).preferredVoice = h.preferredVoice ∧
      (hookRun h evs).pollActive = false ∧
      (hookRun h evs).handlerAttached = false := by
  intro evs
  induction evs with
  | nil => intro h hp hh _; exact ⟨rfl, rfl, hp, hh⟩
  | cons e t ih =>
    intro h hp hh hall
    rw [List.all_cons, Bool.and_eq_true] at hall
    cases e with
    | speakCall txt o => simp [passiveEv] at hall
    | engineStart i => simp [passiveEv] at hall
    | engineEnd i => simp [passiveEv] at hall
    | pollTick =>
      have hstep : hookStep h .pollTick = h := by simp [hookStep, hp]
      have hfold : hookRun h (.pollTick :: t) = hookRun (hookStep h .pollTick) t := rfl
      rw [hfold, hstep]
      exact ih h hp hh hall.2
    | voicesChanged vs =>
      have hstep : hookStep h (.voicesChanged vs) = {h with voices := vs} := by
        simp [hookStep, hh]
      have hfold : hookRun h (.voicesChanged vs :: t) =
          hookRun (hookStep h (.voicesChanged vs)) t := rfl
      rw [hfold, hstep]
      exact ih {h with voices := vs} hp hh hall.2

/-- Claim C7.  Disposing the controller cancels the polling timer and
detaches the voice-list-change callback, and afterwards any sequence of poll
ticks and voice-list-change notifications leaves the `isSpeaking` signal
(indeed the whole speech state) and the preferred voice unchanged — no
orphaned timer or listener outlives the controller. -/
theorem c7_dispose :
    ∀ (h : HookState) (evs : List HookEv),
      (disposeHook h).pollActive = false ∧
      (disposeHook h).handlerAttached = false ∧
      (evs.all passiveEv = true →
        (hookRun (disposeHook h) evs).speech = h.speech ∧
        (hookRun (disposeHook h) evs).preferredVoice = h.preferredVoice) := by
  intro h evs
  refine ⟨rfl, rfl, fun hall => ?_⟩
  obtain ⟨a, b, -, -⟩ := hookRun_passive evs (disposeHook h) rfl rfl hall
  exact ⟨a, b⟩

/-- Claim C7, witness. -/
theorem c7_witness :
    (hookRun (disposeHook (mountHook []))
        [.pollTick, .voicesChanged [⟨"Google US English", "en-US"⟩]]).preferredVoice =
      (mountHook []).preferredVoice :=
  ((c7_dispose (mountHook [])
      [.pollTick, .voicesChanged [⟨"Google US English", "en-US"⟩]]).2.2 (by decide)).2

/-- A cleared or fired timeout is inert: no later event changes the timer
state. -/
theorem splashRun_none :
    ∀ (evs : List SplashEv) (f : ℕ), splashRun ⟨none, f⟩ evs = ⟨none, f⟩ := by
  intro evs
  induction evs with
  | nil => intro f; rfl
  | cons e t ih =>
    intro f
    cases e with
    | tickMs => exact ih f
    | unmount => exact ih f

/-- The timeout fires at most once: starting from a state that has fired at
most once and cannot have fired while still pending, the count never exceeds
one. -/
theorem splash_fired_le_one :
    ∀ (evs : List SplashEv) (s : SplashTimer),
      s.fired ≤ 1 → (s.remaining ≠ none → s.fired = 0) →
      (splashRun s evs).fired ≤ 1 := by
  intro evs
  induction evs with
  | nil => intro s h1 _; exact h1
  | cons e t ih =>
    rintro ⟨rem, f⟩ h1 h2
    cases e with
    | unmount => exact ih ⟨none, f⟩ h1 (fun hc => absurd rfl hc)
    | tickMs =>
      cases rem with
      | none => exact ih ⟨none, f⟩ h1 h2
      | some r =>
        have hf0 : f = 0 := h2 (by simp)
        by_cases hr1 : r ≤ 1
        · have hs : splashStep ⟨some r, f⟩ .tickMs = ⟨none, f + 1⟩ := by
            simp [splashStep, hr1]
          have hfold : splashRun ⟨some r, f⟩ (.tickMs :: t) =
              splashRun (splashStep ⟨some r, f⟩ .tickMs) t := rfl
          rw [hfold, hs]
          exact ih ⟨none, f + 1⟩ (show f + 1 ≤ 1 by omega) (fun hc => absurd rfl hc)
        · have hs : splashStep ⟨some r, f⟩ .tickMs = ⟨some (r - 1), f⟩ := by
            simp [splashStep, hr1]
          have hfold : splashRun ⟨some r, f⟩ (.tickMs :: t) =
              splashRun (splashStep ⟨some r, f⟩ .tickMs) t := rfl
          rw [hfold, hs]
          exact ih ⟨some (r - 1), f⟩ (show f ≤ 1 by omega) (fun _ => hf0)

/-- Running a pending timeout of `r ≥ 1` milliseconds through `n` millisecond
ticks: still pending with `r - n` to go while `n < r`, fired exactly once
otherwise. -/
theorem splashRun_replicate :
    ∀ (n r f : ℕ), 1 ≤ r →
      splashRun ⟨some r, f⟩ (List.replicate n .tickMs) =
        if n < r then ⟨some (r - n), f⟩ else ⟨none, f + 1⟩ := by
  intro n
  induction n with
  | zero =>
    intro r f hr
    rw [List.replicate_zero, if_pos (by omega)]
    rfl
  | succ n ih =>
    intro r f hr
    rw [List.replicate_succ]
    by_cases hr1 : r ≤ 1
    · have hreq : r = 1 := by omega
      subst hreq
      have hs : splashStep ⟨some 1, f⟩ .tickMs = ⟨none, f + 1⟩ := by simp [splashStep]
      have hfold : splashRun ⟨some 1, f⟩ (.tickMs :: List.replicate n .tickMs) =
          splashRun (splashStep ⟨some 1, f⟩ .tickMs) (List.replicate n .tickMs) := rfl
      rw [hfold, hs, splashRun_none, if_neg (by omega)]
    · have hs : splashStep ⟨some r, f⟩ .tickMs = ⟨some (r - 1), f⟩ := by
        simp [splashStep, hr1]
      have hfold : splashRun ⟨some r, f⟩ (.tickMs :: List.replicate n .tickMs) =
          splashRun (splashStep ⟨some r, f⟩ .tickMs) (List.replicate n .tickMs) := rfl
      rw [hfold, hs, ih (r - 1) f (by omega)]
      by_cases hnr : n < r - 1
      · rw [if_pos hnr, if_pos (by omega)]
        have hsub : r - 1 - n = r - (n + 1) := by omega
        rw [hsub]
      · rw [if_neg hnr, if_neg (by omega)]

/-- Claim C8.  The splash auto-dismiss is a 2200 ms (≈ 2.2 s) timeout: it
fires `onDone` at most once on any event sequence; once the component is
torn down (the cleanup's `clearTimeout`) no later event ever fires it; run
without teardown it fires exactly once when the delay elapses and never
before.  No user-input event exists in the model that could cancel it —
only teardown can. -/
theorem c8_splash :
    SPLASH_DELAY_MS = 2200 ∧
    (∀ evs : List SplashEv, (splashRun splashMount evs).fired ≤ 1) ∧
    (∀ (s : SplashTimer) (evs : List SplashEv),
      (splashRun (splashStep s .unmount) evs).fired = s.fired) ∧
    (splashRun splashMount (List.replicate SPLASH_DELAY_MS .tickMs)).fired = 1 ∧
    (∀ n, n < SPLASH_DELAY_MS →
      (splashRun splashMount (List.replicate n .tickMs)).fired = 0) := by
  refine ⟨rfl, ?_, ?_, ?_, ?_⟩
  · intro evs
    exact splash_fired_le_one evs splashMount (by decide) (fun _ => rfl)
  · intro s evs
    have h : splashStep s .unmount = ⟨none, s.fired⟩ := rfl
    rw [h, splashRun_none]
  · rw [show splashMount = ⟨some SPLASH_DELAY_MS, 0⟩ from rfl,
      splashRun_replicate SPLASH_DELAY_MS SPLASH_DELAY_MS 0 (by decide),
      if_neg (lt_irrefl _)]
  · intro n hn
    rw [show splashMount = ⟨some SPLASH_DELAY_MS, 0⟩ from rfl,
      splashRun_replicate n SPLASH_DELAY_MS 0 (by decide), if_pos hn]

/-- Claim C8, witness. -/
theorem c8_witness :
    (splashRun splashMount (List.replicate 100 .tickMs)).fired = 0 :=
  c8_splash.2.2.2.2 100 (by decide)

/-- Totality of the code-point lexicographic comparison. -/
theorem lexLe_total : ∀ x y : List Char, lexLe x y = true ∨ lexLe y x = true := by
  intro x
  induction x with
  | nil => intro y; left; cases y <;> rfl
  | cons a as ih =>
    intro y
    cases y with
    | nil => right; rfl
    | cons b bs =>
      by_cases hab : a.toNat < b.toNat
      · left; simp [lexLe, hab]
      · by_cases hba : b.toNat < a.toNat
        · right; simp [lexLe, hba]
        · rcases ih bs with h | h
          · left; simp [lexLe, hab, hba, h]
          · right; simp [lexLe, hab, hba, h]

/-- Transitivity of the code-point lexicographic comparison. -/
theorem lexLe_trans : ∀ x y z : List Char,
    lexLe x y = true → lexLe y z = true → lexLe x z = true := by
  intro x
  induction x with
  | nil => intro y z h1 h2; cases z <;> rfl
  | cons a as ih =>
    intro y z h1 h2
    cases y with
    | nil => simp [lexLe] at h1
    | cons b bs =>
      cases z with
      | nil => simp [lexLe] at h2
      | cons c cs =>
        by_cases hab : a.toNat < b.toNat
        · by_cases hbc : b.toNat < c.toNat
          · simp [lexLe, show a.toNat < c.toNat by omega]
          · by_cases hcb : c.toNat < b.toNat
            · simp [lexLe, hbc, hcb] at h2
            · simp [lexLe, show a.toNat < c.toNat by omega]
        · by_cases hba : b.toNat < a.toNat
          · simp [lexLe, hab, hba] at h1
          · by_cases hbc : b.toNat < c.toNat
            · simp [lexLe, show a.toNat < c.toNat by omega]
            · by_cases hcb : c.toNat < b.toNat
              · simp [lexLe, hbc, hcb] at h2
              · simp [lexLe, hab, hba] at h1
                simp [lexLe, hbc, hcb] at h2
                simp [lexLe, show ¬(a.toNat < c.toNat) by omega,
                  show ¬(c.toNat < a.toNat) by omega]
                exact ih bs cs h1 h2

/-- Claim C9.  The Category screen's item list is a permutation of the
category's stored items computed on a fresh copy (the stored sequence is a
Lean value and cannot be mutated; the sort consumes the spread copy): the
letters category is pairwise sorted by slug comparison, every category other
than numbers and letters pairwise by label comparison, and the modelled
numbers category — stored in file-name (string) order — comes out exactly in
ascending numeric slug order, pairwise sorted by the parsed integer value of
the slug. -/
theorem c9_sorted :
    (∀ c : CategoryM, (itemsSorted c).Perm c.items) ∧
    (∀ c : CategoryM, c.key = "letters" → (itemsSorted c).Pairwise slugLeP) ∧
    (∀ c : CategoryM, c.key ≠ "numbers" → c.key ≠ "letters" →
      (itemsSorted c).Pairwise labelLeP) ∧
    (itemsSorted numbersCategoryM).map (fun it => it.slug) =
      ["1", "2", "3", "4", "5", "6", "7", "8", "9", "10", "11", "12", "13", "14",
       "15", "16", "17", "18", "19", "20"] ∧
    (itemsSorted numbersCategoryM).Pairwise
      (fun a b => (jsIntVal (jsToNumber a.slug)).getD 0 ≤ (jsIntVal (jsToNumber b.slug)).getD 0) := by
  refine ⟨?_, ?_, ?_, by decide, by decide⟩
  · intro c
    unfold itemsSorted
    split_ifs <;> exact List.perm_insertionSort _ _
  · intro c hk
    unfold itemsSorted
    rw [if_neg (by rw [hk]; decide), if_pos hk]
    exact @List.sorted_insertionSort Item slugLeP _
      ⟨fun a b => lexLe_total _ _⟩ ⟨fun a b c hab hbc => lexLe_trans _ _ _ hab hbc⟩ c.items
  · intro c hk1 hk2
    unfold itemsSorted
    rw [if_neg hk1, if_neg hk2]
    exact @List.sorted_insertionSort Item labelLeP _
      ⟨fun a b => lexLe_total _ _⟩ ⟨fun a b c hab hbc => lexLe_trans _ _ _ hab hbc⟩ c.items

/-- Claim C9, witness. -/
theorem c9_witness :
    (itemsSorted lettersCategoryM).Pairwise slugLeP ∧
    (itemsSorted (CategoryM.mk "colors" "Colors" [Item.mk "red" "Red" none,
      Item.mk "blue" "Blue" none, Item.mk "green" "Green" none])).Pairwise labelLeP :=
  ⟨c9_sorted.2.1 lettersCategoryM rfl,
   c9_sorted.2.2.1 (CategoryM.mk "colors" "Colors" [Item.mk "red" "Red" none,
     Item.mk "blue" "Blue" none, Item.mk "green" "Green" none]) (by decide) (by decide)⟩

/-- Claim C10.  For any key matching no category of the catalog, the
Category screen's lookup finds nothing and the screen renders nothing
(`null`): the unknown-key branch returns before any field of the missing
category is accessed. -/
theorem c10_unknown_key :
    ∀ (catalog : List CategoryM) (key : String),
      (∀ c ∈ catalog, c.key ≠ key) → renderCategoryScreen catalog key = none := by
  intro catalog key hinv
  have hfind : catalog.find? (fun c => c.key == key) = none :=
    List.find?_eq_none.mpr (fun c hc => by simp [hinv c hc])
  simp [renderCategoryScreen, hfind]

/-- Claim C10, witness. -/
theorem c10_witness : renderCategoryScreen CATEGORIES_M "vehicles" = none :=
  c10_unknown_key CATEGORIES_M "vehicles" (by decide)

end TinyWordy

